import Mathlib

/-!
Shallow embedding of `code.py`, the Adafruit MACROPAD hotkey controller:
the action-sequence interpreter (press and release branches of the main
loop), the profile-activation routine `App.switch` together with
`display_image`, and the event-loop tick (encoder move, encoder button,
keypad dispatch) plus startup.

Modelling conventions:
* Python's duck-typed sequence items (`isinstance` checks on
  int/float/str/list/dict) become the closed variant `Item`; values of any
  other runtime type are `Item.other`.  Elements of the media list and the
  values stored in a mouse dict are modelled at scalar granularity by
  `Scalar` (`Scalar.other` stands for any non-int/non-float/non-str value);
  this is exactly the granularity at which `code.py` inspects them.
* Floats are modelled as exact rationals (no rounding is relevant here).
* An order comparison such as `item['buttons'] >= 0` on a non-numeric
  value raises `TypeError` in Python, which is uncaught in `code.py` and
  aborts the program.  Comparisons therefore return `Option Bool`
  (`none` = TypeError), and the interpreter threads an `ok : Bool` flag:
  `false` means the loop body raised and nothing further runs.
* The output sink (HID keyboard / consumer control / mouse / speaker) is
  recorded as a trace of `SinkCall`s; `SinkState` is the abstract asserted
  state of that sink (keyboard report as a set of keycodes, mouse button
  byte as the set of asserted bits, the single consumer-control slot, the
  tone).  LED pixels and the OLED menu are separate surfaces held in the
  controller state.
-/

/-- A Python value at the granularity the mouse-dict / media-list code of
`code.py` inspects it: int, float, str, or anything else. -/
inductive Scalar where
  | int (n : Int)
  | float (q : ℚ)
  | str (s : String)
  | other
deriving DecidableEq

/-- One element of a macro `sequence`, mirroring the `isinstance` chain of
the main loop: int, float, str, list (consumer-control codes), dict (mouse
event), or a value of any other type. -/
inductive Item where
  | int (n : Int)
  | float (q : ℚ)
  | str (s : String)
  | list (xs : List Scalar)
  | dict (entries : List (String × Scalar))
  | other
deriving DecidableEq

/-- One call on the output sink, in the order `code.py` issues them. -/
inductive SinkCall where
  | keyPress (c : Int)
  | keyRelease (c : Int)
  | keyReleaseAll
  | sleep (d : ℚ)
  | write (s : String)
  | ccRelease
  | ccPress (c : Int)
  | mousePress (m : Scalar)
  | mouseRelease (m : Scalar)
  | mouseReleaseAll
  | mouseMove (x y wheel : Scalar)
  | toneStop
  | toneStart (f : Scalar)
  | playFile (p : Scalar)
deriving DecidableEq

/-- Python `v >= 0`: defined for numbers, `TypeError` (`none`) otherwise. -/
def Scalar.geZero : Scalar → Option Bool
  | .int n => some (decide (0 ≤ n))
  | .float q => some (decide (0 ≤ q))
  | _ => none

/-- Python `v > 0`: defined for numbers, `TypeError` (`none`) otherwise. -/
def Scalar.gtZero : Scalar → Option Bool
  | .int n => some (decide (0 < n))
  | .float q => some (decide (0 < q))
  | _ => none

/-- Python unary minus on a number (only reached after a comparison
succeeded, so the non-numeric cases are unreachable). -/
def Scalar.neg : Scalar → Scalar
  | .int n => .int (-n)
  | .float q => .float (-q)
  | s => s

/-- Dict lookup `d[k]` (Python dicts have distinct keys). -/
def dictGet (d : List (String × Scalar)) (k : String) : Option Scalar :=
  (d.lookup k)

/-- Python `item[k] if k in item else 0`, used for the mouse-move
arguments. -/
def dictGetD (d : List (String × Scalar)) (k : String) : Scalar :=
  (dictGet d k).getD (.int 0)

/-- Press-branch handling of one element of a consumer-control list
(lines 251-256): an int code releases the prior code then presses the new
one, a float sleeps, anything else does nothing. -/
def codePlay : Scalar → List SinkCall
  | .int c => [.ccRelease, .ccPress c]
  | .float d => [.sleep d]
  | _ => []

/-- The unconditional `mouse.move` call of the dict branch (lines 263-265),
with `item[k] if k in item else 0` arguments. -/
def moveCall (d : List (String × Scalar)) : SinkCall :=
  .mouseMove (dictGetD d "x") (dictGetD d "y") (dictGetD d "wheel")

/-- The tone / play-file tail of the dict branch (lines 266-273). -/
def tonePart (d : List (String × Scalar)) : List SinkCall × Bool :=
  match dictGet d "tone" with
  | some t =>
    match t.gtZero with
    | none => ([], false)
    | some true => ([.toneStop, .toneStart t], true)
    | some false => ([.toneStop], true)
  | none =>
    match dictGet d "play" with
    | some p => ([.playFile p], true)
    | none => ([], true)

/-- Press-branch handling of a mouse dict (lines 257-273): optional
button press/release, unconditional move, then tone else play-file.
The `Bool` is `false` at the point of a `TypeError`. -/
def dictPlay (d : List (String × Scalar)) : List SinkCall × Bool :=
  match dictGet d "buttons" with
  | none => (moveCall d :: (tonePart d).1, (tonePart d).2)
  | some b =>
    match b.geZero with
    | none => ([], false)
    | some true => (.mousePress b :: moveCall d :: (tonePart d).1, (tonePart d).2)
    | some false => (.mouseRelease b.neg :: moveCall d :: (tonePart d).1, (tonePart d).2)

/-- Press-branch handling of one sequence item (lines 240-273). -/
def Item.play : Item → List SinkCall × Bool
  | .int n => if 0 ≤ n then ([.keyPress n], true) else ([.keyRelease (-n)], true)
  | .float q => ([.sleep q], true)
  | .str s => ([.write s], true)
  | .list xs => ((xs.map codePlay).flatten, true)
  | .dict d => dictPlay d
  | .other => ([], true)

/-- The press branch over a whole sequence: items run in order; a raised
`TypeError` (`ok = false`) aborts the remaining items. -/
def playSeq : List Item → List SinkCall × Bool
  | [] => ([], true)
  | it :: rest =>
    if (Item.play it).2 then
      ((Item.play it).1 ++ (playSeq rest).1, (playSeq rest).2)
    else Item.play it

/-- Release-branch handling of one sequence item (lines 280-289):
a non-negative int is released; a dict releases its button mask if
non-negative, else (`elif`) stops the tone if a tone entry exists;
everything else is skipped. -/
def Item.rel : Item → List SinkCall × Bool
  | .int n => if 0 ≤ n then ([.keyRelease n], true) else ([], true)
  | .dict d =>
    (match dictGet d "buttons" with
     | some b =>
       match b.geZero with
       | none => ([], false)
       | some true => ([.mouseRelease b], true)
       | some false => ([], true)
     | none =>
       if (dictGet d "tone").isSome then ([.toneStop], true) else ([], true))
  | _ => ([], true)

/-- The release loop over a whole sequence (lines 280-289). -/
def releaseSeq : List Item → List SinkCall × Bool
  | [] => ([], true)
  | it :: rest =>
    if (Item.rel it).2 then
      ((Item.rel it).1 ++ (releaseSeq rest).1, (releaseSeq rest).2)
    else Item.rel it

/-- The full release edge (lines 280-290): the release loop followed by the
unconditional `consumer_control.release()` (which is only reached when the
loop did not raise). -/
def releaseEdge (seq : List Item) : List SinkCall × Bool :=
  if (releaseSeq seq).2 then ((releaseSeq seq).1 ++ [.ccRelease], true)
  else releaseSeq seq

/-- Abstract asserted state of the output sink: the keyboard report as the
set of pressed keycodes, the mouse button byte as the set of asserted bits,
the single consumer-control slot, and the active tone. -/
structure SinkState where
  keys : Finset Int
  mouse : Finset ℕ
  media : Option Int
  tone : Option Scalar
deriving DecidableEq

/-- The set of bits of a button mask (`report[0] |= mask` asserts exactly
these bits). -/
def natBits (m : ℕ) : Finset ℕ :=
  (Finset.range (m + 1)).filter (fun i => m.testBit i)

/-- A mouse-mask argument as a bit pattern.  A non-int argument would fault
inside the HID layer before changing the report, hence the empty mask. -/
def Scalar.maskNat : Scalar → ℕ
  | .int n => n.toNat
  | _ => 0

/-- Effect of one sink call on the asserted sink state.  `write` presses
and releases each character, so it nets to no asserted state; `mouseMove`
and `playFile` assert nothing. -/
def SinkCall.apply (c : SinkCall) (s : SinkState) : SinkState :=
  match c with
  | .keyPress k => { s with keys := insert k s.keys }
  | .keyRelease k => { s with keys := s.keys.erase k }
  | .keyReleaseAll => { s with keys := ∅ }
  | .sleep _ => s
  | .write _ => s
  | .ccRelease => { s with media := none }
  | .ccPress k => { s with media := some k }
  | .mousePress m => { s with mouse := s.mouse ∪ natBits m.maskNat }
  | .mouseRelease m => { s with mouse := s.mouse \ natBits m.maskNat }
  | .mouseReleaseAll => { s with mouse := ∅ }
  | .mouseMove _ _ _ => s
  | .toneStop => { s with tone := none }
  | .toneStart f => { s with tone := some f }
  | .playFile _ => s

/-- Run a trace of sink calls against the sink state. -/
def applyTrace (t : List SinkCall) (s : SinkState) : SinkState :=
  t.foldl (fun s c => c.apply s) s

/-- The sink state with nothing asserted. -/
def SinkState.idle : SinkState := ⟨∅, ∅, none, none⟩

/-- The whole release edge of the main loop as it acts on the sink state
and the LED pixel list (lines 280-293): run the release trace, and — when
the loop did not raise — restore the key's LED to its bound color (skipped
for the encoder-button index 12). -/
def runReleaseEdge (seq : List Item) (key : ℕ) (color : Int)
    (sp : SinkState × List Int) : SinkState × List Int :=
  if (releaseEdge seq).2 ∧ key < 12 then
    (applyTrace (releaseEdge seq).1 sp.1, sp.2.set key color)
  else (applyTrace (releaseEdge seq).1 sp.1, sp.2)

/-- One key binding as stored in a profile's `macros` list:
`(LED color, label, sequence)`. -/
structure KeyBinding where
  color : Int
  label : String
  seq : List Item
deriving DecidableEq

/-- A loaded application profile (`class App`). -/
structure App where
  name : String
  macros : List KeyBinding
  icon : String
deriving DecidableEq

/-- Used where Python indexing is already known to be in bounds. -/
def emptyApp : App := ⟨"", [], ""⟩

/-- The routine `display_image` (lines 44-92) at the interface the
controller sees:
it samples the encoder once at entry (`enc0`) and once per animation frame
(`polls`, the finite sequence of reads the timed loop performs, stopping
early at the first change); it returns `true` iff no sampled position
differed from `enc0`. -/
def display_image (enc0 : Int) (polls : List Int) : Bool :=
  polls.all (fun p => p = enc0)

/-- The "stop everything" prologue of `App.switch` (lines 110-113):
`keyboard.release_all()`, `consumer_control.release()`,
`mouse.release_all()`, `stop_tone()`. -/
def switchTrace : List SinkCall :=
  [.keyReleaseAll, .ccRelease, .mouseReleaseAll, .toneStop]

/-- LED colors written by `App.switch` (lines 115-120): the bound color for
keys with a binding, 0 (off) for the rest of the 12 keys. -/
def switchPixels (a : App) : List Int :=
  (List.range 12).map (fun i =>
    match a.macros.get? i with
    | some m => m.color
    | none => 0)

/-- Menu labels written by `App.switch` (lines 127-131). -/
def switchLabels (a : App) : List String :=
  (List.range 12).map (fun i =>
    match a.macros.get? i with
    | some m => m.label
    | none => "")

/-- Outcome of `App.switch`: the sink calls it issued, the LED colors, the
twelve menu labels and the title line after the call, and its return
value. -/
structure SwitchResult where
  trace : List SinkCall
  pixels : List Int
  labels : List String
  title : String
  ok : Bool
deriving DecidableEq

/-- `App.switch` (lines 106-135): release everything, write the LED
colors, present the icon; if presentation was interrupted return `False`
leaving the menu labels and title (`labels`, `title`) as they were,
otherwise write the labels and the profile name and return `True`. -/
def appSwitch (a : App) (enc0 : Int) (polls : List Int)
    (labels : List String) (title : String) : SwitchResult :=
  if display_image enc0 polls then
    ⟨switchTrace, switchPixels a, switchLabels a, a.name, true⟩
  else
    ⟨switchTrace, switchPixels a, labels, title, false⟩

/-- Controller state of the main loop: active profile index, the recorded
encoder position (`None` before the first tick), the recorded debounced
encoder-button state, the LED colors, and the menu surface. -/
structure Ctrl where
  appIndex : ℕ
  lastPos : Option Int
  lastEnc : Bool
  pixels : List Int
  labels : List String
  title : String
deriving DecidableEq

/-- Inputs sampled by one tick of the main loop: encoder position,
debounced encoder-button state, the keypad event (if any) at the head of
the queue, and the encoder reads an icon presentation would perform this
tick. -/
structure Input where
  pos : Int
  encPressed : Bool
  keyEvent : Option (ℕ × Bool)
  polls : List Int
deriving DecidableEq

/-- Line 198, `app_index = position % len(apps)`; Python `%` with a
positive modulus, i.e. the always-non-negative remainder. -/
def nextAppIndex (position : Int) (count : ℕ) : ℕ :=
  (position % (count : Int)).toNat

/-- Press/release dispatch for a bound key or the encoder button
(lines 228-293).  Returns the updated controller state, the sink calls of
this tick (appended after `t0`), and `false` when a `TypeError` escaped. -/
def dispatch (a : App) (key : ℕ) (pressed : Bool) (c : Ctrl)
    (t0 : List SinkCall) : Ctrl × List SinkCall × Bool :=
  let b := a.macros.getD key ⟨0, "", []⟩
  if pressed then
    let c1 := if key < 12 then { c with pixels := c.pixels.set key 0xFFFFFF } else c
    let r := playSeq b.seq
    (c1, t0 ++ r.1, r.2)
  else
    let r := releaseEdge b.seq
    if r.2 then
      let c1 := if key < 12 then { c with pixels := c.pixels.set key b.color } else c
      (c1, t0 ++ r.1, true)
    else (c, t0 ++ r.1, false)

/-- Encoder-button and keypad handling of one tick (lines 209-293), after
any profile switch already happened: an encoder-button edge records the
new state and is dropped unless a 13th binding exists; otherwise a keypad
event is taken and dropped if its index has no binding. -/
def tickInput (apps : List App) (c : Ctrl) (inp : Input)
    (t0 : List SinkCall) : Ctrl × List SinkCall × Bool :=
  let a := apps.getD c.appIndex emptyApp
  if inp.encPressed ≠ c.lastEnc then
    let c1 := { c with lastEnc := inp.encPressed }
    if a.macros.length < 13 then (c1, t0, true)
    else dispatch a 12 inp.encPressed c1 t0
  else
    match inp.keyEvent with
    | none => (c, t0, true)
    | some (k, pr) =>
      if a.macros.length ≤ k then (c, t0, true)
      else dispatch a k pr c t0

/-- One tick of the main loop (lines 193-293).  If the encoder moved, the
profile at `position mod count` is activated (recording the new position
and index even when interrupted) and, on interruption, the rest of the
tick is skipped (`continue`). -/
def tick (apps : List App) (c : Ctrl) (inp : Input) :
    Ctrl × List SinkCall × Bool :=
  if c.lastPos ≠ some inp.pos then
    let idx := nextAppIndex inp.pos apps.length
    let a := apps.getD idx emptyApp
    let r := appSwitch a inp.pos inp.polls c.labels c.title
    let c1 : Ctrl :=
      { c with appIndex := idx, lastPos := some inp.pos,
               pixels := r.pixels, labels := r.labels, title := r.title }
    if r.ok then tickInput apps c1 inp r.trace
    else (c1, r.trace, true)
  else tickInput apps c inp []

/-- Outcome of startup (lines 161-187): either the permanent halt with the
diagnostic title, or a running controller plus the sink calls of the
initial profile activation. -/
inductive StartupOutcome where
  | halted (msg : String)
  | running (c : Ctrl) (t : List SinkCall)
deriving DecidableEq

/-- Startup after profile loading (lines 178-187): with no profiles,
write the diagnostic title and halt forever; otherwise record the initial
encoder-button state and activate profile 0. -/
def startup (apps : List App) (encPressed0 : Bool) (enc0 : Int)
    (polls : List Int) : StartupOutcome :=
  if apps.isEmpty then .halted "NO MACRO FILES FOUND"
  else
    let a := apps.getD 0 emptyApp
    let r := appSwitch a enc0 polls (List.replicate 12 "") ""
    .running ⟨0, none, encPressed0, r.pixels, r.labels, r.title⟩ r.trace

/-- Run the main loop over a finite schedule of tick inputs, collecting
all sink calls; an uncaught `TypeError` stops the program. -/
def runLoop (apps : List App) : Ctrl → List Input → List SinkCall
  | _, [] => []
  | c, i :: rest =>
    let r := tick apps c i
    r.2.1 ++ (if r.2.2 then runLoop apps r.1 rest else [])

/-- The whole program after profile loading: startup, then — only if
startup did not halt — the main loop. -/
def runSystem (apps : List App) (encPressed0 : Bool) (enc0 : Int)
    (polls : List Int) (inputs : List Input) : List SinkCall :=
  match startup apps encPressed0 enc0 polls with
  | .halted _ => []
  | .running c t => t ++ runLoop apps c inputs

/-- The call shapes that the release edge can emit. -/
def SinkCall.isRel : SinkCall → Bool
  | .keyRelease _ => true
  | .mouseRelease _ => true
  | .toneStop => true
  | .ccRelease => true
  | _ => false

/-- What a release-shape call guarantees about the sink state once it has
run: the thing it releases is no longer asserted. -/
def relInv (c : SinkCall) (s : SinkState) : Prop :=
  match c with
  | .keyRelease k => k ∉ s.keys
  | .mouseRelease m => Disjoint s.mouse (natBits m.maskNat)
  | .toneStop => s.tone = none
  | .ccRelease => s.media = none
  | _ => True

theorem relInv_establish (c : SinkCall) (s : SinkState) :
    relInv c (c.apply s) := by
  cases c <;> simp [relInv, SinkCall.apply]
  exact Finset.sdiff_disjoint

theorem relInv_preserve (c d : SinkCall) (hd : d.isRel = true)
    (s : SinkState) (h : relInv c s) : relInv c (d.apply s) := by
  cases d
  case keyRelease k =>
    cases c <;> simp_all [relInv, SinkCall.apply, Finset.mem_erase]
  case mouseRelease m =>
    cases c <;> simp_all [relInv, SinkCall.apply]
    exact h.mono_left sdiff_le
  case toneStop =>
    cases c <;> simp_all [relInv, SinkCall.apply]
  case ccRelease =>
    cases c <;> simp_all [relInv, SinkCall.apply]
  all_goals exact absurd hd (by simp [SinkCall.isRel])

theorem relInv_apply (c : SinkCall) (hc : c.isRel = true) (s : SinkState)
    (h : relInv c s) : c.apply s = s := by
  obtain ⟨keys, mouse, media, tone⟩ := s
  cases c <;>
    simp_all [relInv, SinkCall.isRel, SinkCall.apply,
      Finset.erase_eq_of_not_mem, Finset.sdiff_eq_self_iff_disjoint]

theorem relInv_applyTrace (c : SinkCall) (t : List SinkCall)
    (ht : ∀ d ∈ t, d.isRel = true) (s : SinkState) (h : relInv c s) :
    relInv c (applyTrace t s) := by
  induction t generalizing s with
  | nil => exact h
  | cons d t' ih =>
    exact ih (fun e he => ht e (List.mem_cons_of_mem _ he)) (d.apply s)
      (relInv_preserve c d (ht d (List.mem_cons_self _ _)) s h)

/-- Running a trace of release-shape calls twice on the sink is the same
as running it once. -/
theorem applyTrace_rel_idem (t : List SinkCall)
    (ht : ∀ d ∈ t, d.isRel = true) (s : SinkState) :
    applyTrace t (applyTrace t s) = applyTrace t s := by
  induction t generalizing s with
  | nil => rfl
  | cons c t' ih =>
    have hc : c.isRel = true := ht c (List.mem_cons_self _ _)
    have ht' : ∀ d ∈ t', d.isRel = true :=
      fun e he => ht e (List.mem_cons_of_mem _ he)
    have habs : c.apply (applyTrace t' (c.apply s)) = applyTrace t' (c.apply s) :=
      relInv_apply c hc _ (relInv_applyTrace c t' ht' _ (relInv_establish c s))
    calc applyTrace (c :: t') (applyTrace (c :: t') s)
        = applyTrace t' (c.apply (applyTrace t' (c.apply s))) := rfl
      _ = applyTrace t' (applyTrace t' (c.apply s)) := by rw [habs]
      _ = applyTrace t' (c.apply s) := ih ht' _
      _ = applyTrace (c :: t') s := rfl

theorem isRel_of_mem_itemRel (it : Item) :
    ∀ d ∈ (Item.rel it).1, d.isRel = true := by
  intro d hd
  cases it
  case int n =>
    unfold Item.rel at hd
    by_cases h : 0 ≤ n
    · simp [h] at hd
      simp [hd, SinkCall.isRel]
    · simp [h] at hd
  case dict entries =>
    unfold Item.rel at hd
    repeat' split at hd
    all_goals simp_all [SinkCall.isRel]
  all_goals simp [Item.rel] at hd

theorem isRel_of_mem_releaseSeq (seq : List Item) :
    ∀ d ∈ (releaseSeq seq).1, d.isRel = true := by
  induction seq with
  | nil => intro d hd; simp [releaseSeq] at hd
  | cons it rest ih =>
    intro d hd
    unfold releaseSeq at hd
    split at hd
    · rcases List.mem_append.mp hd with h | h
      · exact isRel_of_mem_itemRel it d h
      · exact ih d h
    · exact isRel_of_mem_itemRel it d hd

theorem isRel_of_mem_releaseEdge (seq : List Item) :
    ∀ d ∈ (releaseEdge seq).1, d.isRel = true := by
  intro d hd
  unfold releaseEdge at hd
  split at hd
  · rcases List.mem_append.mp hd with h | h
    · exact isRel_of_mem_releaseSeq seq d h
    · simp at h; simp [h, SinkCall.isRel]
  · exact isRel_of_mem_releaseSeq seq d hd

/-- Every consumer-control press in the trace sits immediately after a
consumer-control release. -/
def goodCC (t : List SinkCall) : Prop :=
  ∀ i c, t[i]? = some (SinkCall.ccPress c) →
    ∃ j, i = j + 1 ∧ t[j]? = some SinkCall.ccRelease

theorem goodCC_nil : goodCC [] := by
  intro i c h
  simp at h

theorem goodCC_of_no_ccPress (t : List SinkCall)
    (h : ∀ c, SinkCall.ccPress c ∉ t) : goodCC t := by
  intro i c hi
  exact absurd (List.getElem?_mem hi) (h c)

theorem goodCC_append (a b : List SinkCall)
    (ha : goodCC a) (hb : goodCC b) : goodCC (a ++ b) := by
  intro i c hi
  by_cases h : i < a.length
  · rw [List.getElem?_append_left h] at hi
    obtain ⟨j, hij, hj⟩ := ha i c hi
    exact ⟨j, hij, by rw [List.getElem?_append_left (by omega)]; exact hj⟩
  · rw [List.getElem?_append_right (by omega)] at hi
    obtain ⟨j, hij, hj⟩ := hb (i - a.length) c hi
    refine ⟨a.length + j, by omega, ?_⟩
    rw [List.getElem?_append_right (by omega)]
    simpa using hj

theorem goodCC_pair (c : Int) :
    goodCC [SinkCall.ccRelease, SinkCall.ccPress c] := by
  intro i c' hi
  match i with
  | 0 => simp at hi
  | 1 => exact ⟨0, rfl, rfl⟩
  | (n + 2) => simp at hi

theorem no_ccPress_tonePart (d : List (String × Scalar)) (c : Int) :
    SinkCall.ccPress c ∉ (tonePart d).1 := by
  unfold tonePart
  repeat' split
  all_goals simp

theorem no_ccPress_dictPlay (d : List (String × Scalar)) (c : Int) :
    SinkCall.ccPress c ∉ (dictPlay d).1 := by
  unfold dictPlay
  repeat' split
  all_goals simp [moveCall, no_ccPress_tonePart d c]

theorem goodCC_codePlay (x : Scalar) : goodCC (codePlay x) := by
  cases x with
  | int c => exact goodCC_pair c
  | float q => exact goodCC_of_no_ccPress _ (by simp [codePlay])
  | str s => exact goodCC_nil
  | other => exact goodCC_nil

theorem goodCC_itemPlay (it : Item) : goodCC (Item.play it).1 := by
  cases it with
  | int n =>
    by_cases h : 0 ≤ n <;>
      [exact goodCC_of_no_ccPress _ (by simp [Item.play, h]);
       exact goodCC_of_no_ccPress _ (by simp [Item.play, h])]
  | float q => exact goodCC_of_no_ccPress _ (by simp [Item.play])
  | str s => exact goodCC_of_no_ccPress _ (by simp [Item.play])
  | dict d => exact goodCC_of_no_ccPress _ (fun c => no_ccPress_dictPlay d c)
  | other => exact goodCC_nil
  | list xs =>
    show goodCC ((xs.map codePlay).flatten)
    induction xs with
    | nil => exact goodCC_nil
    | cons x xs' ih =>
      rw [List.map_cons, List.flatten_cons]
      exact goodCC_append _ _ (goodCC_codePlay x) ih

theorem goodCC_playSeq (seq : List Item) : goodCC (playSeq seq).1 := by
  induction seq with
  | nil => exact goodCC_nil
  | cons it rest ih =>
    unfold playSeq
    split
    · exact goodCC_append _ _ (goodCC_itemPlay it) ih
    · exact goodCC_itemPlay it

/-- Claim C1 (evidence of the code bug): for the one-item sequence whose
mouse dict carries both a button mask and a tone, the full press branch
asserts the tone, and the release edge run afterwards leaves that very
tone still asserted — the release branch checks `tone` only in an `elif`
behind `buttons`, so it never stops it.  The claimed no-leak property
fails. -/
theorem claim_C1_tone_leak :
    (applyTrace
        (playSeq [Item.dict [("buttons", Scalar.int 1), ("tone", Scalar.int 440)]]).1
        SinkState.idle).tone = some (Scalar.int 440) ∧
    (applyTrace
        (releaseEdge [Item.dict [("buttons", Scalar.int 1), ("tone", Scalar.int 440)]]).1
        (applyTrace
          (playSeq [Item.dict [("buttons", Scalar.int 1), ("tone", Scalar.int 440)]]).1
          SinkState.idle)).tone = some (Scalar.int 440) := by
  decide

/-- Claim C4 (evidence of the code bug): for a mouse-dict item with both a
non-negative button mask and a positive tone, the press branch starts the
tone, yet the release edge consists of the mouse-button release and the
media release only — no `stop_tone` call is issued for that item, contrary
to the claim that the tone is stopped. -/
theorem claim_C4_release_no_tone_stop :
    (releaseEdge [Item.dict [("buttons", Scalar.int 2), ("tone", Scalar.int 330)]]).1 =
      [SinkCall.mouseRelease (Scalar.int 2), SinkCall.ccRelease] ∧
    SinkCall.toneStop ∉
      (releaseEdge [Item.dict [("buttons", Scalar.int 2), ("tone", Scalar.int 330)]]).1 ∧
    (applyTrace
        (playSeq [Item.dict [("buttons", Scalar.int 2), ("tone", Scalar.int 330)]]).1
        SinkState.idle).tone = some (Scalar.int 330) := by
  decide

/-- Claim C3: the release edge (release loop, unconditional media release,
LED restore) is idempotent — running it twice from any sink state and LED
list ends in exactly the state of running it once. -/
theorem claim_C3_release_idem (seq : List Item) (key : ℕ) (color : Int)
    (sp : SinkState × List Int) :
    runReleaseEdge seq key color (runReleaseEdge seq key color sp) =
      runReleaseEdge seq key color sp := by
  unfold runReleaseEdge
  by_cases h : ((releaseEdge seq).2 = true ∧ key < 12)
  · simp only [if_pos h, List.set_set,
      applyTrace_rel_idem _ (isRel_of_mem_releaseEdge seq)]
  · simp only [if_neg h,
      applyTrace_rel_idem _ (isRel_of_mem_releaseEdge seq)]

/-- Claim C5 counterexample: the media-list sequence does NOT produce
exactly the four claimed calls — the code emits a media release before the
first press as well, so the actual trace has five calls and starts with a
release. -/
theorem claim_C5_counterexample :
    (playSeq [Item.list [Scalar.int 1, Scalar.float (mkRat 1 10), Scalar.int 2]]).1 ≠
      [SinkCall.ccPress 1, SinkCall.sleep (mkRat 1 10),
       SinkCall.ccRelease, SinkCall.ccPress 2] := by
  decide

/-- Claim C5 (amended): playing `[MediaCodes([code1, d, code2])]` produces
exactly `media-release(), media-press(code1), sleep d, media-release(),
media-press(code2)` — a release precedes every press, the first one
included. -/
theorem claim_C5_amended (c1 c2 : Int) (d : ℚ) :
    playSeq [Item.list [Scalar.int c1, Scalar.float d, Scalar.int c2]] =
      ([SinkCall.ccRelease, SinkCall.ccPress c1, SinkCall.sleep d,
        SinkCall.ccRelease, SinkCall.ccPress c2], true) := rfl

/-- Claim C7: `position mod profileCount` is total and in range whenever at
least one profile is loaded, and it is the mathematical non-negative
remainder. -/
theorem claim_C7_mod_total (position : Int) (count : ℕ) (h : 1 ≤ count) :
    nextAppIndex position count < count ∧
    (nextAppIndex position count : Int) = position % (count : Int) ∧
    0 ≤ position % (count : Int) := by
  have hpos : (0 : Int) < (count : Int) := by exact_mod_cast h
  have h1 : 0 ≤ position % (count : Int) := Int.emod_nonneg _ (by omega)
  have h2 : position % (count : Int) < (count : Int) := Int.emod_lt_of_pos _ hpos
  unfold nextAppIndex
  refine ⟨by omega, by omega, h1⟩

theorem claim_C7_witness :
    (1 ≤ 2 ∧ nextAppIndex 3 2 < 2) ∧ nextAppIndex 3 2 = 1 :=
  ⟨⟨by decide, (claim_C7_mod_total 3 2 (by decide)).1⟩, by decide⟩

/-- Claim C9: with zero profiles loaded, startup reaches the permanent
halt with the fixed diagnostic title, and the whole system emits no sink
call for any schedule of inputs — no key event is ever processed. -/
theorem claim_C9_empty_halts (encPressed0 : Bool) (enc0 : Int)
    (polls : List Int) (inputs : List Input) :
    startup [] encPressed0 enc0 polls =
      StartupOutcome.halted "NO MACRO FILES FOUND" ∧
    runSystem [] encPressed0 enc0 polls inputs = [] := by
  exact ⟨rfl, rfl⟩

/-- Claim C10: in any press-branch trace, every consumer-control press is
immediately preceded by a consumer-control release (in particular the
first code of a media list), so at no point is more than one
consumer-control code asserted. -/
theorem claim_C10_release_before_press (seq : List Item) (i : ℕ) (c : Int)
    (h : (playSeq seq).1[i]? = some (SinkCall.ccPress c)) :
    ∃ j, i = j + 1 ∧ (playSeq seq).1[j]? = some SinkCall.ccRelease :=
  goodCC_playSeq seq i c h

theorem claim_C10_witness :
    (playSeq [Item.list [Scalar.int 7]]).1[1]? = some (SinkCall.ccPress 7) ∧
    ∃ j, 1 = j + 1 ∧
      (playSeq [Item.list [Scalar.int 7]]).1[j]? = some SinkCall.ccRelease :=
  ⟨by decide, claim_C10_release_before_press [Item.list [Scalar.int 7]] 1 7 (by decide)⟩

/-- Claim C2 counterexample: an interrupted activation (encoder poll 1
differs from the entry position 0) does return `false`, but the LED
surface has already been rewritten to the new profile's bound colors —
pixel 0 is now 0xFF0000 instead of the previous off state — so the LED
part of the claim is false. -/
theorem claim_C2_counterexample :
    (appSwitch ⟨"P", [⟨0xFF0000, "Copy", []⟩], "0.bmp"⟩ 0 [1]
        (List.replicate 12 "") "T").ok = false ∧
    (appSwitch ⟨"P", [⟨0xFF0000, "Copy", []⟩], "0.bmp"⟩ 0 [1]
        (List.replicate 12 "") "T").pixels ≠ List.replicate 12 0 := by
  decide

/-- Claim C2 (amended): an interrupted activation returns `false` and
leaves the menu labels and title exactly as they were; the LED colors,
however, are already set to the new profile's bound colors (and the global
release calls are issued) before the interruption. -/
theorem claim_C2_interrupted_switch (a : App) (enc0 : Int) (polls : List Int)
    (labels : List String) (title : String)
    (h : display_image enc0 polls = false) :
    appSwitch a enc0 polls labels title =
      ⟨switchTrace, switchPixels a, labels, title, false⟩ := by
  unfold appSwitch
  rw [h]
  simp

theorem claim_C2_witness :
    display_image 0 [1] = false ∧
    appSwitch ⟨"W", [], "i.bmp"⟩ 0 [1] (List.replicate 12 "") "t" =
      ⟨switchTrace, switchPixels ⟨"W", [], "i.bmp"⟩,
       List.replicate 12 "", "t", false⟩ :=
  ⟨by decide, claim_C2_interrupted_switch ⟨"W", [], "i.bmp"⟩ 0 [1]
    (List.replicate 12 "") "t" (by decide)⟩

/-- Claim C6 counterexample: an encoder-button edge with no 13th binding
is dropped with zero sink calls, but the tick does mutate controller
state — it records the new debounced button state in `lastEnc`. -/
theorem claim_C6_counterexample :
    (tick [⟨"P", [⟨1, "a", []⟩], "0.bmp"⟩]
        ⟨0, some 0, false, List.replicate 12 0, List.replicate 12 "", "P"⟩
        ⟨0, true, none, []⟩).2.1 = [] ∧
    (tick [⟨"P", [⟨1, "a", []⟩], "0.bmp"⟩]
        ⟨0, some 0, false, List.replicate 12 0, List.replicate 12 "", "P"⟩
        ⟨0, true, none, []⟩).1.lastEnc ≠ false := by
  decide

/-- Claim C6 (amended): with the encoder position unchanged, a dropped
encoder-button edge (no 13th binding) produces zero sink calls and changes
only `lastEnc`, which records the new debounced state; a dropped keypad
event (index with no binding) produces zero sink calls and zero state
mutation. -/
theorem claim_C6_unbound_edge (apps : List App) (c : Ctrl) (inp : Input)
    (hpos : c.lastPos = some inp.pos) :
    (inp.encPressed ≠ c.lastEnc →
      (apps.getD c.appIndex emptyApp).macros.length < 13 →
      tick apps c inp = ({ c with lastEnc := inp.encPressed }, [], true)) ∧
    (inp.encPressed = c.lastEnc → ∀ k pr, inp.keyEvent = some (k, pr) →
      (apps.getD c.appIndex emptyApp).macros.length ≤ k →
      tick apps c inp = (c, [], true)) := by
  constructor
  · intro hedge hlen
    unfold tick tickInput
    simp [hpos, hedge, hlen]
    intro h13
    exact absurd h13 (by simp at hlen ⊢; omega)
  · intro hedge k pr hev hlen
    unfold tick tickInput
    simp [hpos, hedge, hev, hlen]
    intro hk
    exact absurd hk (by simp at hlen ⊢; omega)

theorem claim_C6_witness :
    tick [] ⟨0, some 0, false, [], [], ""⟩ ⟨0, true, none, []⟩ =
      (⟨0, some 0, true, [], [], ""⟩, [], true) :=
  (claim_C6_unbound_edge [] ⟨0, some 0, false, [], [], ""⟩ ⟨0, true, none, []⟩
    rfl).1 (by decide) (by decide)

/-- Claim C8 counterexample: a malformed item of a recognized kind — a
mouse dict whose `buttons` value is a string — raises a `TypeError`: play
stops with no calls emitted and the remaining item (the keypress 5) is
never executed, so "never aborts the remaining sequence" is false. -/
theorem claim_C8_counterexample :
    playSeq [Item.dict [("buttons", Scalar.str "x")], Item.int 5] = ([], false) ∧
    SinkCall.keyPress 5 ∉
      (playSeq [Item.dict [("buttons", Scalar.str "x")], Item.int 5]).1 := by
  decide

/-- Claim C8 (amended): an item whose runtime type is none of
int/float/str/list/dict is a true local no-op — playing any sequence with
it inserted anywhere is identical (same sink calls, same completion) to
playing the sequence without it. -/
theorem claim_C8_unknown_noop (pre rest : List Item) :
    playSeq (pre ++ Item.other :: rest) = playSeq (pre ++ rest) := by
  induction pre with
  | nil => simp [playSeq, Item.play]
  | cons it pre' ih => simp [playSeq, ih]
